import Mathlib

/-!
Shallow embedding of `src/projet_azure/generate_reviews.py`.

The script builds synthetic airline reviews: three fixed string pools, a
`generate_fake_review` function that samples from them with `random.choice`,
draws a rating with `random.randint(1, 5)`, a reviewer name and a
current-year date with `faker`, tags the record with `uuid.uuid4()`, and an
unbounded driver loop that prints each record and sleeps five seconds.

Randomness is embedded by explicit oracles: each call receives the raw
draws the Python random sources would produce, and every library primitive
is a function of those draws.
-/

set_option maxRecDepth 10000

namespace ProjetAzure

/-- Values stored in the review dictionary: the Python dict holds strings
and one int. -/
inductive PyVal where
  | s (v : String) : PyVal
  | i (v : Nat) : PyVal

deriving instance DecidableEq, Repr for PyVal

/-- The `airlines` pool, source lines 8-12. -/
def airlines : List String := [
  "Air France", "Royal Air Maroc", "Air Arabia", "Emirates",
  "Saudia", "Ryanair", "Qatar Airways", "Lufthansa",
  "TAP Air Portugal", "KLM", "Turkish Airlines", "EasyJet"
]

/-- The `sample_titles` pool, source lines 14-19. -/
def sample_titles : List String := [
  "Excellent experience", "Terrible flight", "Smooth journey", "Great service",
  "Awful food", "Lost luggage", "On-time and comfortable", "Never again",
  "Highly recommended", "Mediocre experience", "Delayed and frustrating", "Crew was amazing",
  "Unexpectedly good", "Total disappointment", "Worth every penny", "Terrible customer service"
]

/-- The `sample_bodies` pool, source lines 21-38. -/
def sample_bodies : List String := [
  "The flight was on time and the crew was extremely helpful and friendly.",
  "I had the worst experience ever. The staff was rude and the plane was dirty.",
  "Seats were comfortable and there was plenty of legroom. Great value for the money.",
  "The food served on board was awful. Cold and tasteless.",
  "We departed late but arrived early. Impressive time management.",
  "Customer service was unreachable and offered no help with my issue.",
  "The cabin was clean and the inflight entertainment was decent.",
  "I will never book with this airline again. Completely unprofessional.",
  "Everything went smoothly. Luggage arrived on time and check-in was fast.",
  "Very noisy cabin and poor handling of turbulence.",
  "The flight attendants were polite and always smiling. It made a difference.",
  "They lost my suitcase and it took over a week to get it back.",
  "Boarding process was chaotic and disorganized.",
  "It was a short flight but surprisingly comfortable. Would fly again.",
  "They overbooked the flight and bumped me off. Unacceptable.",
  "Inflight entertainment was outdated and barely worked."
]

/-- The module-level mutable environment: the three global pools the
function reads.  Python code could rebind or mutate these globals, so calls
thread the environment explicitly; `generate_fake_review` only reads it. -/
structure Env where
  airlines : List String
  sample_titles : List String
  sample_bodies : List String

deriving instance DecidableEq for Env

/-- The environment the script starts with: the three literal pools. -/
def initEnv : Env := { airlines := airlines, sample_titles := sample_titles, sample_bodies := sample_bodies }

/-- Models `random.choice(seq)`: a uniform index below `seq`'s length
(`randbelow`), raising `IndexError` (here `none`) on an empty sequence. -/
def choice {α : Type} (l : List α) (k : Nat) : Option α :=
  l[(k % l.length)]?

/-- Models `random.randint(lo, hi)` = `lo + randbelow(hi - lo + 1)`. -/
def randint (lo hi k : Nat) : Nat := lo + k % (hi - lo + 1)

/-! ## Calendar dates -/

/-- Gregorian leap-year test, as in Python's `datetime`. -/
def isLeapB (y : Nat) : Bool := (y % 4 == 0 && y % 100 != 0) || y % 400 == 0

/-- Length of month `m` (1-12) given the leap flag; 0 outside 1-12. -/
def daysInMonthB (leap : Bool) (m : Nat) : Nat :=
  if m = 1 then 31 else if m = 2 then (if leap then 29 else 28)
  else if m = 3 then 31 else if m = 4 then 30 else if m = 5 then 31
  else if m = 6 then 30 else if m = 7 then 31 else if m = 8 then 31
  else if m = 9 then 30 else if m = 10 then 31 else if m = 11 then 30
  else if m = 12 then 31 else 0

/-- Days contained in months `1..m` of a year with the given leap flag. -/
def cumDaysB (leap : Bool) : Nat → Nat
  | 0 => 0
  | m + 1 => cumDaysB leap m + daysInMonthB leap (m + 1)

/-- Ordinal (1-based day of year) of day `d` of month `m`. -/
def dayOfYearMD (leap : Bool) (m d : Nat) : Nat := cumDaysB leap (m - 1) + d

/-- Number of days in the year. -/
def daysInYearB (leap : Bool) : Nat := if leap then 366 else 365

/-- A calendar date as `datetime.date` holds it. -/
structure Date where
  year : Nat
  month : Nat
  day : Nat

deriving instance DecidableEq, Repr for Date

/-- A real (month, day) pair under a leap flag: month 1-12 and day within
the month. -/
def ValidMD (leap : Bool) (m d : Nat) : Prop :=
  1 ≤ m ∧ m ≤ 12 ∧ 1 ≤ d ∧ d ≤ daysInMonthB leap m

instance (leap : Bool) (m d : Nat) : Decidable (ValidMD leap m d) := by
  unfold ValidMD; infer_instance

/-- A real calendar date: month 1-12 and day within the month. -/
def ValidDate (d : Date) : Prop := ValidMD (isLeapB d.year) d.month d.day

instance (d : Date) : Decidable (ValidDate d) := by
  unfold ValidDate; infer_instance

/-- Date order (same conventions as `datetime.date` comparison). -/
def dateLe (a b : Date) : Prop :=
  a.year < b.year ∨ (a.year = b.year ∧
    (a.month < b.month ∨ (a.month = b.month ∧ a.day ≤ b.day)))

instance (a b : Date) : Decidable (dateLe a b) := by
  unfold dateLe; infer_instance

/-- Walk the months to turn a 1-based ordinal back into (month, day);
`fuel` bounds the remaining months to inspect. -/
def monthFromOrdinal (leap : Bool) : Nat → Nat → Nat → Nat × Nat
  | 0, m, n => (m, n)
  | fuel + 1, m, n =>
      if n ≤ daysInMonthB leap m then (m, n)
      else monthFromOrdinal leap fuel (m + 1) (n - daysInMonthB leap m)

/-- Month and day of the `n`-th day of the year (1-based ordinal). -/
def fromOrdinalMD (leap : Bool) (n : Nat) : Nat × Nat :=
  monthFromOrdinal leap 11 1 n

/-- Date of the `n`-th day (1-based) of year `y`. -/
def fromOrdinalDate (y n : Nat) : Date :=
  { year := y, month := (fromOrdinalMD (isLeapB y) n).1, day := (fromOrdinalMD (isLeapB y) n).2 }

/-- Ordinal of a date within its year. -/
def dayOfYearD (d : Date) : Nat := dayOfYearMD (isLeapB d.year) d.month d.day

/-- Models `faker.date_this_year()`: with the defaults
(`before_today=True`, `after_today=False`) it returns a date drawn
uniformly between January 1 of the current year and today, inclusive;
`today` is the generation day and `e` the raw draw. -/
def fakerDateThisYear (today : Date) (e : Nat) : Date :=
  fromOrdinalDate today.year (1 + e % dayOfYearD today)

/-- Decimal digit characters of `n` zero-padded to width 2, as `%m`/`%d`. -/
def pad2Chars (n : Nat) : List Char :=
  [Nat.digitChar (n / 10 % 10), Nat.digitChar (n % 10)]

/-- Decimal digit characters of `n` zero-padded to width 4, as `%Y` renders
years up to 9999 (`datetime.MAXYEAR`). -/
def pad4Chars (n : Nat) : List Char :=
  [Nat.digitChar (n / 1000 % 10), Nat.digitChar (n / 100 % 10),
   Nat.digitChar (n / 10 % 10), Nat.digitChar (n % 10)]

/-- Models `date.strftime("%Y-%m-%d")` for years up to 9999. -/
def strftimeYMD (d : Date) : String :=
  String.mk (pad4Chars d.year ++ '-' :: pad2Chars d.month ++ '-' :: pad2Chars d.day)

/-- Value of a decimal digit character, `none` on anything else. -/
def digitVal (c : Char) : Option Nat :=
  if 48 ≤ c.toNat ∧ c.toNat ≤ 57 then some (c.toNat - 48) else none

/-- Parse a `YYYY-MM-DD` string back into a `Date` (strict: exactly ten
characters, dashes in place, all digits). -/
def parseDateYMD (s : String) : Option Date :=
  match s.data with
  | [y1, y2, y3, y4, h1, m1, m2, h2, d1, d2] =>
    if h1 = '-' ∧ h2 = '-' then
      match digitVal y1, digitVal y2, digitVal y3, digitVal y4,
            digitVal m1, digitVal m2, digitVal d1, digitVal d2 with
      | some a, some b, some c, some d, some e, some f, some g, some h =>
        some { year := ((a * 10 + b) * 10 + c) * 10 + d, month := e * 10 + f, day := g * 10 + h }
      | _, _, _, _, _, _, _, _ => none
    else none
  | _ => none

/-! ## UUID version 4 -/

/-- Models the integer of `uuid.UUID(bytes=os.urandom(16), version=4)` for a
128-bit draw `r`: bits 0-61, 64-75 and 80-127 of `r` are kept, bits 62-63
are forced to the variant `10` and bits 76-79 to the version `0100`. -/
def uuid4val (r : Nat) : Nat :=
  r % 2 ^ 62 + 2 ^ 63 + (r / 2 ^ 64 % 2 ^ 12) * 2 ^ 64 + 4 * 2 ^ 76 + r / 2 ^ 80 * 2 ^ 80

/-- The 32 lowercase hex characters of `v`, most significant nibble first:
the result of Python's `"%032x" % v` for `v` below `2 ^ 128`. -/
def hex32 (v : Nat) : List Char :=
  (List.range 32).map (fun i => Nat.digitChar (v / 16 ^ (31 - i) % 16))

/-- Characters of `str(uuid)`: the 32 hex digits sliced `8-4-4-4-12` with
dashes, per `UUID.__str__`. -/
def uuidStrChars (v : Nat) : List Char :=
  (hex32 v).take 8 ++ '-' :: ((hex32 v).drop 8).take 4 ++ '-' ::
    ((hex32 v).drop 12).take 4 ++ '-' :: ((hex32 v).drop 16).take 4 ++ '-' ::
    (hex32 v).drop 20

/-- Models `str(uuid.uuid4())` as a function of the 128-bit draw. -/
def uuid4str (r : Nat) : String := String.mk (uuidStrChars (uuid4val r))

/-- Hex character of nibble `k` (bits `4k..4k+3`) of `v`. -/
def nib (v k : Nat) : Char := Nat.digitChar (v / 16 ^ k % 16)

/-- The sixteen lowercase hex digit characters. -/
def hexDigits : List Char := "0123456789abcdef".data

/-! ## The generator -/

/-- One call's worth of raw randomness: the bytes `uuid4` draws, the
`randbelow` draws behind the three `choice` calls and `randint`, the faker
outputs, and the generation day `today`. -/
structure RandOracle where
  uuidBits : Nat
  airlineDraw : Nat
  titleDraw : Nat
  bodyDraw : Nat
  fakerName : String
  ratingDraw : Nat
  dateDraw : Nat
  today : Date

/-- A review record: the Python dict as an association list in insertion
order. -/
def Review : Type := List (String × PyVal)

instance : DecidableEq Review := by
  unfold Review; infer_instance

/-- Embedding of `generate_fake_review` (source lines 40-58).  The draws
come from the oracle `o`; the pools are read from the environment `env`,
which is returned unchanged (the function body never writes a global).  A
failing `random.choice` (empty pool) propagates as `none`. -/
def generate_fake_review (env : Env) (o : RandOracle) : Option Review × Env :=
  match choice env.airlines o.airlineDraw, choice env.sample_titles o.titleDraw,
        choice env.sample_bodies o.bodyDraw with
  | some airline, some title, some body =>
    (some [("review_id", PyVal.s (uuid4str o.uuidBits)),
           ("airline", PyVal.s airline),
           ("reviewer", PyVal.s o.fakerName),
           ("rating", PyVal.i (randint 1 5 o.ratingDraw)),
           ("date", PyVal.s (strftimeYMD (fakerDateThisYear o.today o.dateDraw))),
           ("title", PyVal.s title),
           ("body", PyVal.s body)], env)
  | _, _, _ => (none, env)

/-! ## The driver loop -/

/-- Observable effects of the driver loop: writes to standard output and
timed suspensions. -/
inductive Event where
  | out (s : String) : Event
  | sleep (secs : Nat) : Event

deriving instance DecidableEq for Event

/-- Models `print(s)`: writes the argument plus a trailing newline. -/
def printEvent (s : String) : Event := Event.out (s ++ "\n")

/-- A single-quote character, for Python string reprs. -/
def squote : String := String.mk [Char.ofNat 39]

/-- Models `repr` of a plain string — one containing no quote, backslash or
control characters, which covers every string this script produces: Python
then wraps the text in single quotes. -/
def pyReprStr (s : String) : String := squote ++ s ++ squote

/-- Models `repr` of a dict value. -/
def pyReprVal : PyVal → String
  | PyVal.s v => pyReprStr v
  | PyVal.i n => Nat.repr n

/-- Models `", ".join(parts)`. -/
def joinComma : List String → String
  | [] => ""
  | [x] => x
  | x :: y :: xs => x ++ ", " ++ joinComma (y :: xs)

/-- Models `str(dict)`: brace-wrapped, comma-separated `key: value` pairs in
insertion order. -/
def pyReprDict (r : Review) : String :=
  "\x7b" ++ joinComma (r.map (fun kv => pyReprStr kv.1 ++ ": " ++ pyReprVal kv.2)) ++ "\x7d"

/-- Effects of one loop body (source lines 61-64): call the generator,
print the header, print the record labelled `Review ID:`, sleep 5 seconds.
A failed generation would propagate as an exception (`none`). -/
def driverStep (env : Env) (o : RandOracle) : Option (List Event) :=
  match (generate_fake_review env o).1 with
  | some r => some [printEvent "\n New Review Generated:",
                    printEvent (" Review ID: " ++ pyReprDict r),
                    Event.sleep 5]
  | none => none

/-- The loop condition at source line 60 is the literal `True`. -/
def whileCond : Bool := true

/-- Small-step relation of the driver loop: the state counts completed
iterations, iteration `n` consumes oracle `os n`, and a step fires exactly
when the loop condition holds and the body runs. -/
inductive DriverStep (env : Env) (os : Nat → RandOracle) : Nat → List Event → Nat → Prop where
  | step (n : Nat) (evs : List Event) : whileCond = true →
      driverStep env (os n) = some evs → DriverStep env os n evs (n + 1)

/-- Run `n` generator calls, threading the global environment through the
calls exactly as the interpreter would. -/
def runN (env : Env) (os : Nat → RandOracle) : Nat → List (Option Review) × Env
  | 0 => ([], env)
  | n + 1 =>
    ((runN env os n).1 ++ [(generate_fake_review (runN env os n).2 (os n)).1],
     (generate_fake_review (runN env os n).2 (os n)).2)

/-- A fixed oracle used to instantiate the universally quantified theorems
on concrete data. -/
def sampleOracle : RandOracle :=
  { uuidBits := 277853575294962341489958033131290713633
    airlineDraw := 3
    titleDraw := 5
    bodyDraw := 7
    fakerName := "John Smith"
    ratingDraw := 9
    dateDraw := 100
    today := { year := 2026, month := 10, day := 12 } }

/-- The record the sample oracle produces. -/
def sampleReview : Review := ((generate_fake_review initEnv sampleOracle).1).getD []

/-- An oracle whose uuid draw is zero. -/
def uuidZeroOracle : RandOracle := { sampleOracle with uuidBits := 0 }

/-- An oracle whose uuid draw differs from zero exactly in bit 78 — one of
the four bits `uuid4` overwrites with the version field. -/
def uuidBitOracle : RandOracle := { sampleOracle with uuidBits := 2 ^ 78 }

/-- Strings made of printable ASCII with no quotes or backslashes; on such
strings the `pyReprStr` model of Python `repr` is exact. -/
def PlainStr (s : String) : Prop :=
  ∀ c ∈ s.data, 32 ≤ c.toNat ∧ c.toNat ≤ 126 ∧
    c ≠ Char.ofNat 39 ∧ c ≠ Char.ofNat 34 ∧ c ≠ Char.ofNat 92

instance (s : String) : Decidable (PlainStr s) := by
  unfold PlainStr; infer_instance

/-- Strings without a newline character: rendered by `print` they occupy a
single output line. -/
def noNewline (s : String) : Prop := ∀ c ∈ s.data, c ≠ Char.ofNat 10

instance (s : String) : Decidable (noNewline s) := by
  unfold noNewline; infer_instance

/-! ## Basic lemmas about the primitives -/

lemma choice_eq_some_mem {α : Type} {l : List α} {k : Nat} {a : α}
    (h : choice l k = some a) : a ∈ l := by
  unfold choice at h
  rw [List.getElem?_eq_some] at h
  obtain ⟨hlt, he⟩ := h
  exact he ▸ List.getElem_mem hlt

lemma choice_isSome {α : Type} (l : List α) (k : Nat) (h : l ≠ []) :
    (choice l k).isSome = true := by
  unfold choice
  have hl : 0 < l.length := List.length_pos.mpr h
  have hk : k % l.length < l.length := Nat.mod_lt _ hl
  simp [List.getElem?_eq_getElem hk]

lemma randint15_lb (k : Nat) : 1 ≤ randint 1 5 k := by
  unfold randint; omega

lemma randint15_ub (k : Nat) : randint 1 5 k ≤ 5 := by
  unfold randint
  have : k % 5 < 5 := Nat.mod_lt _ (by norm_num)
  omega

lemma randint15_onto (v : Nat) (h1 : 1 ≤ v) (h5 : v ≤ 5) :
    ∃! k, k < 5 ∧ randint 1 5 k = v := by
  refine ⟨v - 1, ⟨by omega, ?_⟩, ?_⟩
  · unfold randint
    rw [Nat.mod_eq_of_lt (by omega : v - 1 < 5)]
    omega
  · rintro k ⟨hk, he⟩
    unfold randint at he
    rw [Nat.mod_eq_of_lt hk] at he
    omega

/-- Shape of a successful call: the record is the seven-entry literal built
from the oracle's draws. -/
lemma generate_eq_some {env : Env} {o : RandOracle} {r : Review}
    (h : (generate_fake_review env o).1 = some r) :
    ∃ airline title body,
      choice env.airlines o.airlineDraw = some airline ∧
      choice env.sample_titles o.titleDraw = some title ∧
      choice env.sample_bodies o.bodyDraw = some body ∧
      r = [("review_id", PyVal.s (uuid4str o.uuidBits)),
           ("airline", PyVal.s airline),
           ("reviewer", PyVal.s o.fakerName),
           ("rating", PyVal.i (randint 1 5 o.ratingDraw)),
           ("date", PyVal.s (strftimeYMD (fakerDateThisYear o.today o.dateDraw))),
           ("title", PyVal.s title),
           ("body", PyVal.s body)] := by
  unfold generate_fake_review at h
  rcases hA : choice env.airlines o.airlineDraw with _ | airline <;> rw [hA] at h
  · simp at h
  rcases hT : choice env.sample_titles o.titleDraw with _ | title <;> rw [hT] at h
  · simp at h
  rcases hB : choice env.sample_bodies o.bodyDraw with _ | body <;> rw [hB] at h
  · simp at h
  simp only [Option.some.injEq] at h
  exact ⟨airline, title, body, rfl, rfl, rfl, h.symm⟩

lemma generate_env_isSome (env : Env) (o : RandOracle)
    (hA : env.airlines ≠ []) (hT : env.sample_titles ≠ []) (hB : env.sample_bodies ≠ []) :
    ((generate_fake_review env o).1).isSome = true := by
  unfold generate_fake_review
  obtain ⟨a, ha⟩ := Option.isSome_iff_exists.mp (choice_isSome env.airlines o.airlineDraw hA)
  obtain ⟨t, ht⟩ := Option.isSome_iff_exists.mp (choice_isSome env.sample_titles o.titleDraw hT)
  obtain ⟨b, hb⟩ := Option.isSome_iff_exists.mp (choice_isSome env.sample_bodies o.bodyDraw hB)
  rw [ha, ht, hb]
  rfl

/-! ## Claims about rating, pools, success -/

/-- C2: every generated record carries `rating = randint 1 5`, an integer in
the inclusive range `[1, 5]`, and the draw map reaches each of the five
values from exactly one residue (uniformity of `random.randint(1, 5)`). -/
theorem rating_range_uniform (o : RandOracle) (r : Review)
    (h : (generate_fake_review initEnv o).1 = some r) :
    List.lookup "rating" r = some (PyVal.i (randint 1 5 o.ratingDraw)) ∧
    1 ≤ randint 1 5 o.ratingDraw ∧ randint 1 5 o.ratingDraw ≤ 5 ∧
    ∀ v, 1 ≤ v → v ≤ 5 → ∃! k, k < 5 ∧ randint 1 5 k = v := by
  obtain ⟨a, t, b, _, _, _, hr⟩ := generate_eq_some h
  subst hr
  exact ⟨rfl, randint15_lb _, randint15_ub _, randint15_onto⟩

/-- Witness for C2 at the sample oracle. -/
theorem rating_range_uniform_witness :
    List.lookup "rating" sampleReview = some (PyVal.i (randint 1 5 sampleOracle.ratingDraw)) ∧
    1 ≤ randint 1 5 sampleOracle.ratingDraw ∧ randint 1 5 sampleOracle.ratingDraw ≤ 5 ∧
    ∀ v, 1 ≤ v → v ≤ 5 → ∃! k, k < 5 ∧ randint 1 5 k = v :=
  rating_range_uniform sampleOracle sampleReview rfl

/-- C3: the airline field of every generated record is one of the 12 fixed
airlines, and title and body come from their fixed 16-element pools. -/
theorem pool_membership (o : RandOracle) (r : Review)
    (h : (generate_fake_review initEnv o).1 = some r) :
    airlines.length = 12 ∧ sample_titles.length = 16 ∧ sample_bodies.length = 16 ∧
    (∃ a ∈ airlines, List.lookup "airline" r = some (PyVal.s a)) ∧
    (∃ t ∈ sample_titles, List.lookup "title" r = some (PyVal.s t)) ∧
    (∃ b ∈ sample_bodies, List.lookup "body" r = some (PyVal.s b)) := by
  obtain ⟨a, t, b, hA, hT, hB, hr⟩ := generate_eq_some h
  subst hr
  refine ⟨rfl, rfl, rfl, ⟨a, choice_eq_some_mem hA, rfl⟩,
    ⟨t, choice_eq_some_mem hT, rfl⟩, ⟨b, choice_eq_some_mem hB, rfl⟩⟩

/-- Witness for C3 at the sample oracle. -/
theorem pool_membership_witness :
    airlines.length = 12 ∧ sample_titles.length = 16 ∧ sample_bodies.length = 16 ∧
    (∃ a ∈ airlines, List.lookup "airline" sampleReview = some (PyVal.s a)) ∧
    (∃ t ∈ sample_titles, List.lookup "title" sampleReview = some (PyVal.s t)) ∧
    (∃ b ∈ sample_bodies, List.lookup "body" sampleReview = some (PyVal.s b)) :=
  pool_membership sampleOracle sampleReview rfl

/-- C5: the three fixed pools are non-empty by construction, and for every
state of the random sources `generate_fake_review` returns a record
(no error branch is reachable). -/
theorem generate_always_succeeds :
    airlines ≠ [] ∧ sample_titles ≠ [] ∧ sample_bodies ≠ [] ∧
    ∀ o : RandOracle, ((generate_fake_review initEnv o).1).isSome = true := by
  refine ⟨by decide, by decide, by decide, fun o => ?_⟩
  exact generate_env_isSome initEnv o (by decide) (by decide) (by decide)

/-- C6: every generated record has exactly the seven keys `review_id`,
`airline`, `reviewer`, `rating`, `date`, `title`, `body`, in insertion
order, each populated as the spec describes: a UUID render of the 128-bit
draw, pool samples, the faker name, a rating in `[1, 5]`, and a date whose
year is the generation year. -/
theorem record_seven_fields (o : RandOracle) (r : Review)
    (h : (generate_fake_review initEnv o).1 = some r) :
    r.map Prod.fst = ["review_id", "airline", "reviewer", "rating", "date", "title", "body"] ∧
    List.lookup "review_id" r = some (PyVal.s (uuid4str o.uuidBits)) ∧
    (∃ a ∈ airlines, List.lookup "airline" r = some (PyVal.s a)) ∧
    List.lookup "reviewer" r = some (PyVal.s o.fakerName) ∧
    (∃ n, 1 ≤ n ∧ n ≤ 5 ∧ List.lookup "rating" r = some (PyVal.i n)) ∧
    (∃ d : Date, d.year = o.today.year ∧
      List.lookup "date" r = some (PyVal.s (strftimeYMD d))) ∧
    (∃ t ∈ sample_titles, List.lookup "title" r = some (PyVal.s t)) ∧
    (∃ b ∈ sample_bodies, List.lookup "body" r = some (PyVal.s b)) := by
  obtain ⟨a, t, b, hA, hT, hB, hr⟩ := generate_eq_some h
  subst hr
  refine ⟨rfl, rfl, ⟨a, choice_eq_some_mem hA, rfl⟩, rfl,
    ⟨randint 1 5 o.ratingDraw, randint15_lb _, randint15_ub _, rfl⟩,
    ⟨fakerDateThisYear o.today o.dateDraw, rfl, rfl⟩,
    ⟨t, choice_eq_some_mem hT, rfl⟩, ⟨b, choice_eq_some_mem hB, rfl⟩⟩

/-- Witness for C6 at the sample oracle. -/
theorem record_seven_fields_witness :
    sampleReview.map Prod.fst =
      ["review_id", "airline", "reviewer", "rating", "date", "title", "body"] ∧
    List.lookup "review_id" sampleReview = some (PyVal.s (uuid4str sampleOracle.uuidBits)) ∧
    (∃ a ∈ airlines, List.lookup "airline" sampleReview = some (PyVal.s a)) ∧
    List.lookup "reviewer" sampleReview = some (PyVal.s sampleOracle.fakerName) ∧
    (∃ n, 1 ≤ n ∧ n ≤ 5 ∧ List.lookup "rating" sampleReview = some (PyVal.i n)) ∧
    (∃ d : Date, d.year = sampleOracle.today.year ∧
      List.lookup "date" sampleReview = some (PyVal.s (strftimeYMD d))) ∧
    (∃ t ∈ sample_titles, List.lookup "title" sampleReview = some (PyVal.s t)) ∧
    (∃ b ∈ sample_bodies, List.lookup "body" sampleReview = some (PyVal.s b)) :=
  record_seven_fields sampleOracle sampleReview rfl

/-! ## Frame: the generator never writes the global pools -/

lemma generate_snd (env : Env) (o : RandOracle) : (generate_fake_review env o).2 = env := by
  unfold generate_fake_review
  rcases choice env.airlines o.airlineDraw with _ | a <;>
    rcases choice env.sample_titles o.titleDraw with _ | t <;>
      rcases choice env.sample_bodies o.bodyDraw with _ | b <;> rfl

lemma runN_snd (env : Env) (os : Nat → RandOracle) (n : Nat) : (runN env os n).2 = env := by
  induction n with
  | zero => rfl
  | succ n ih =>
    show (generate_fake_review (runN env os n).2 (os n)).2 = env
    rw [generate_snd, ih]

lemma runN_length (env : Env) (os : Nat → RandOracle) (n : Nat) :
    (runN env os n).1.length = n := by
  induction n with
  | zero => rfl
  | succ n ih =>
    show ((runN env os n).1 ++ [_]).length = n + 1
    rw [List.length_append, ih, List.length_singleton]

lemma runN_get (env : Env) (os : Nat → RandOracle) (n i : Nat) (hi : i < n) :
    (runN env os n).1[i]? = some ((generate_fake_review env (os i)).1) := by
  induction n with
  | zero => omega
  | succ n ih =>
    show ((runN env os n).1 ++ [(generate_fake_review (runN env os n).2 (os n)).1])[i]? = _
    rcases Nat.lt_or_ge i n with hlt | hge
    · rw [List.getElem?_append, runN_length, if_pos hlt]
      exact ih hlt
    · have hin : i = n := by omega
      subst hin
      rw [List.getElem?_append, runN_length, if_neg (lt_irrefl _), Nat.sub_self, runN_snd]
      rfl

/-- C8: the generator's only effect is consuming its draws: any call
returns the pool environment unchanged, and running `n` calls yields `n`
records where the `i`-th depends only on the `i`-th oracle and the original
environment — no mutable state flows between calls. -/
theorem generator_frame_and_independence (env : Env) (os : Nat → RandOracle) (n : Nat) :
    (∀ o : RandOracle, (generate_fake_review env o).2 = env) ∧
    (runN env os n).2 = env ∧
    (runN env os n).1.length = n ∧
    ∀ i, i < n → (runN env os n).1[i]? = some ((generate_fake_review env (os i)).1) :=
  ⟨fun o => generate_snd env o, runN_snd env os n, runN_length env os n,
    fun i hi => runN_get env os n i hi⟩

/-- Witness for C8: two runs from the initial environment, checked at
iteration 0. -/
theorem generator_frame_and_independence_witness :
    (runN initEnv (fun _ => sampleOracle) 2).2 = initEnv ∧
    (runN initEnv (fun _ => sampleOracle) 2).1.length = 2 ∧
    (runN initEnv (fun _ => sampleOracle) 2).1[0]? =
      some ((generate_fake_review initEnv sampleOracle).1) := by
  obtain ⟨-, h2, h3, h4⟩ :=
    generator_frame_and_independence initEnv (fun _ => sampleOracle) 2
  exact ⟨h2, h3, h4 0 (by norm_num)⟩

/-! ## The driver loop never exits -/

/-- C7: the loop condition is the literal `True`, so from every iteration
count the driver takes a step: it generates a record, prints the header and
the labelled record, then sleeps 5 seconds — there is no exit branch. -/
theorem driver_loop_nonterminating (os : Nat → RandOracle) (n : Nat) :
    whileCond = true ∧
    ∃ r : Review, (generate_fake_review initEnv (os n)).1 = some r ∧
      DriverStep initEnv os n
        [printEvent "\n New Review Generated:",
         printEvent (" Review ID: " ++ pyReprDict r),
         Event.sleep 5] (n + 1) := by
  have hs := generate_env_isSome initEnv (os n) (by decide) (by decide) (by decide)
  obtain ⟨r, hr⟩ := Option.isSome_iff_exists.mp hs
  refine ⟨rfl, r, hr, DriverStep.step n _ rfl ?_⟩
  unfold driverStep
  rw [hr]

/-! ## Shape of the printed block -/

lemma data_append (s t : String) : (s ++ t).data = s.data ++ t.data := by
  cases s; cases t; rfl

lemma noNewline_append {s t : String} (hs : noNewline s) (ht : noNewline t) :
    noNewline (s ++ t) := by
  intro c hc
  rw [data_append, List.mem_append] at hc
  rcases hc with hc | hc
  · exact hs c hc
  · exact ht c hc

lemma plainStr_noNewline {s : String} (h : PlainStr s) : noNewline s := by
  intro c hc heq
  have h32 := (h c hc).1
  rw [heq] at h32
  simp [Char.ofNat] at h32

lemma digitChar_ne_nl {k : Nat} (h : k < 16) : Nat.digitChar k ≠ Char.ofNat 10 := by
  interval_cases k <;> decide

lemma hex32_mem_ne_nl {v : Nat} {c : Char} (hc : c ∈ hex32 v) : c ≠ Char.ofNat 10 := by
  unfold hex32 at hc
  obtain ⟨i, _, he⟩ := List.mem_map.mp hc
  exact he ▸ digitChar_ne_nl (Nat.mod_lt _ (by norm_num))

lemma uuidStrChars_mem {v : Nat} {c : Char} (hc : c ∈ uuidStrChars v) :
    c ∈ hex32 v ∨ c = '-' := by
  unfold uuidStrChars at hc
  rcases List.mem_append.mp hc with h | h
  · rcases List.mem_append.mp h with h | h
    · rcases List.mem_append.mp h with h | h
      · rcases List.mem_append.mp h with h | h
        · exact Or.inl (List.mem_of_mem_take h)
        · rcases List.mem_cons.mp h with h | h
          · exact Or.inr h
          · exact Or.inl (List.mem_of_mem_drop (List.mem_of_mem_take h))
      · rcases List.mem_cons.mp h with h | h
        · exact Or.inr h
        · exact Or.inl (List.mem_of_mem_drop (List.mem_of_mem_take h))
    · rcases List.mem_cons.mp h with h | h
      · exact Or.inr h
      · exact Or.inl (List.mem_of_mem_drop (List.mem_of_mem_take h))
  · rcases List.mem_cons.mp h with h | h
    · exact Or.inr h
    · exact Or.inl (List.mem_of_mem_drop h)

lemma noNewline_uuid4str (r : Nat) : noNewline (uuid4str r) := by
  intro c hc
  rcases uuidStrChars_mem hc with h | h
  · exact hex32_mem_ne_nl h
  · subst h; decide

lemma digitChar_mod10_ne_nl (x : Nat) : Nat.digitChar (x % 10) ≠ Char.ofNat 10 :=
  digitChar_ne_nl (Nat.lt_of_lt_of_le (Nat.mod_lt _ (by norm_num)) (by norm_num))

lemma noNewline_strftimeYMD (d : Date) : noNewline (strftimeYMD d) := by
  intro c hc
  have hc' : c ∈ pad4Chars d.year ++ '-' :: pad2Chars d.month ++ '-' :: pad2Chars d.day := hc
  simp only [pad4Chars, pad2Chars, List.mem_append, List.mem_cons,
    List.not_mem_nil, or_false] at hc'
  rcases hc' with (((h | h | h | h) | h | h | h) | h | h | h) <;> subst h
  all_goals first
    | decide
    | exact digitChar_mod10_ne_nl _

lemma noNewline_natRepr {n : Nat} (h : n ≤ 5) : noNewline (Nat.repr n) := by
  interval_cases n <;> decide

lemma noNewline_pyReprStr {s : String} (h : noNewline s) : noNewline (pyReprStr s) := by
  unfold pyReprStr
  exact noNewline_append (noNewline_append (by decide) h) (by decide)

lemma noNewline_joinComma {l : List String} (h : ∀ s ∈ l, noNewline s) :
    noNewline (joinComma l) := by
  induction l with
  | nil => intro c hc; simp [joinComma] at hc
  | cons x xs ih =>
    rcases xs with _ | ⟨y, ys⟩
    · exact h x (by simp)
    · show noNewline (x ++ ", " ++ joinComma (y :: ys))
      refine noNewline_append (noNewline_append (h x (by simp)) (by decide)) ?_
      exact ih (fun s hs => h s (List.mem_cons_of_mem x hs))

lemma pool_strings_plain :
    (∀ s ∈ airlines, PlainStr s) ∧ (∀ s ∈ sample_titles, PlainStr s) ∧
      (∀ s ∈ sample_bodies, PlainStr s) := by
  refine ⟨?_, ?_, ?_⟩ <;> decide

lemma noNewline_pyReprDict {o : RandOracle} {r : Review}
    (h : (generate_fake_review initEnv o).1 = some r) (hname : noNewline o.fakerName) :
    noNewline (pyReprDict r) := by
  obtain ⟨a, t, b, hA, hT, hB, hr⟩ := generate_eq_some h
  subst hr
  unfold pyReprDict
  refine noNewline_append (noNewline_append (by decide) ?_) (by decide)
  refine noNewline_joinComma ?_
  intro s hs
  simp only [List.map_cons, List.map_nil, List.mem_cons, List.not_mem_nil, or_false] at hs
  have hA' : noNewline a :=
    plainStr_noNewline (pool_strings_plain.1 a (choice_eq_some_mem hA))
  have hT' : noNewline t :=
    plainStr_noNewline (pool_strings_plain.2.1 t (choice_eq_some_mem hT))
  have hB' : noNewline b :=
    plainStr_noNewline (pool_strings_plain.2.2 b (choice_eq_some_mem hB))
  rcases hs with h | h | h | h | h | h | h
  all_goals subst h
  · exact noNewline_append (noNewline_append (by decide) (by decide))
      (noNewline_pyReprStr (noNewline_uuid4str _))
  · exact noNewline_append (noNewline_append (by decide) (by decide))
      (noNewline_pyReprStr hA')
  · exact noNewline_append (noNewline_append (by decide) (by decide))
      (noNewline_pyReprStr hname)
  · exact noNewline_append (noNewline_append (by decide) (by decide))
      (noNewline_natRepr (randint15_ub _))
  · exact noNewline_append (noNewline_append (by decide) (by decide))
      (noNewline_pyReprStr (noNewline_strftimeYMD _))
  · exact noNewline_append (noNewline_append (by decide) (by decide))
      (noNewline_pyReprStr hT')
  · exact noNewline_append (noNewline_append (by decide) (by decide))
      (noNewline_pyReprStr hB')

/-- C9: each loop iteration emits exactly one block: the literal header
written by the first `print`, then a single line (no interior newline) that
starts with the label `Review ID:` but renders the entire record, then the
sleep. -/
theorem driver_output_block_shape (o : RandOracle) (hname : PlainStr o.fakerName) :
    ∃ r : Review, (generate_fake_review initEnv o).1 = some r ∧
      driverStep initEnv o =
        some [Event.out ("\n New Review Generated:" ++ "\n"),
              Event.out ((" Review ID: " ++ pyReprDict r) ++ "\n"),
              Event.sleep 5] ∧
      noNewline (" Review ID: " ++ pyReprDict r) := by
  have hs := generate_env_isSome initEnv o (by decide) (by decide) (by decide)
  obtain ⟨r, hr⟩ := Option.isSome_iff_exists.mp hs
  refine ⟨r, hr, ?_, ?_⟩
  · unfold driverStep
    rw [hr]
    rfl
  · exact noNewline_append (by decide)
      (noNewline_pyReprDict hr (plainStr_noNewline hname))

/-- Witness for C9 at the sample oracle. -/
theorem driver_output_block_shape_witness :
    ∃ r : Review, (generate_fake_review initEnv sampleOracle).1 = some r ∧
      driverStep initEnv sampleOracle =
        some [Event.out ("\n New Review Generated:" ++ "\n"),
              Event.out ((" Review ID: " ++ pyReprDict r) ++ "\n"),
              Event.sleep 5] ∧
      noNewline (" Review ID: " ++ pyReprDict r) :=
  driver_output_block_shape sampleOracle (by decide)

/-! ## Calendar lemmas -/

lemma fromOrdinalMD_spec_fin : ∀ (leap : Bool) (k : Fin 366),
    k.1 + 1 ≤ daysInYearB leap →
    ValidMD leap (fromOrdinalMD leap (k.1 + 1)).1 (fromOrdinalMD leap (k.1 + 1)).2 ∧
      dayOfYearMD leap (fromOrdinalMD leap (k.1 + 1)).1 (fromOrdinalMD leap (k.1 + 1)).2 =
        k.1 + 1 := by
  decide

lemma fromOrdinalMD_spec (leap : Bool) (n : Nat) (h1 : 1 ≤ n) (h2 : n ≤ daysInYearB leap) :
    ValidMD leap (fromOrdinalMD leap n).1 (fromOrdinalMD leap n).2 ∧
      dayOfYearMD leap (fromOrdinalMD leap n).1 (fromOrdinalMD leap n).2 = n := by
  have hy : daysInYearB leap ≤ 366 := by cases leap <;> decide
  have hk : n - 1 < 366 := by omega
  have hn : n - 1 + 1 = n := by omega
  have := fromOrdinalMD_spec_fin leap ⟨n - 1, hk⟩
  rw [hn] at this
  exact this h2

lemma dayOfYearMD_fromOrdinal_fin : ∀ (leap : Bool) (m : Fin 12) (d : Fin 31),
    d.1 + 1 ≤ daysInMonthB leap (m.1 + 1) →
    fromOrdinalMD leap (dayOfYearMD leap (m.1 + 1) (d.1 + 1)) = (m.1 + 1, d.1 + 1) := by
  decide

lemma dayOfYearMD_fromOrdinal (leap : Bool) {m d : Nat} (h : ValidMD leap m d) :
    fromOrdinalMD leap (dayOfYearMD leap m d) = (m, d) := by
  obtain ⟨hm1, hm12, hd1, hdm⟩ := h
  have hmf : m - 1 < 12 := by omega
  have hdf : d - 1 < 31 := by
    have : daysInMonthB leap m ≤ 31 := by
      interval_cases m <;> cases leap <;> decide
    omega
  have hm : m - 1 + 1 = m := by omega
  have hd : d - 1 + 1 = d := by omega
  have := dayOfYearMD_fromOrdinal_fin leap ⟨m - 1, hmf⟩ ⟨d - 1, hdf⟩
  rw [hm, hd] at this
  exact this hdm

lemma cumDaysB_succ (leap : Bool) (m : Nat) :
    cumDaysB leap (m + 1) = cumDaysB leap m + daysInMonthB leap (m + 1) := rfl

lemma cumDaysB_mono (leap : Bool) {a b : Nat} (h : a ≤ b) :
    cumDaysB leap a ≤ cumDaysB leap b := by
  induction b with
  | zero =>
    have ha : a = 0 := by omega
    subst ha; exact le_rfl
  | succ b ih =>
    rcases Nat.lt_or_ge a (b + 1) with h' | h'
    · exact le_trans (ih (by omega)) (by rw [cumDaysB_succ]; omega)
    · have ha : a = b + 1 := by omega
      subst ha; exact le_rfl

lemma cumDaysB_pred (leap : Bool) {m : Nat} (h : 1 ≤ m) :
    cumDaysB leap m = cumDaysB leap (m - 1) + daysInMonthB leap m := by
  have hm : m - 1 + 1 = m := by omega
  conv_lhs => rw [← hm]
  rw [cumDaysB_succ, hm]

lemma dayOfYearMD_le (leap : Bool) {m1 d1 m2 d2 : Nat}
    (h1 : ValidMD leap m1 d1) (h2 : ValidMD leap m2 d2)
    (hlex : m1 < m2 ∨ (m1 = m2 ∧ d1 ≤ d2)) :
    dayOfYearMD leap m1 d1 ≤ dayOfYearMD leap m2 d2 := by
  obtain ⟨hm1a, -, -, hd1b⟩ := h1
  obtain ⟨-, -, hd2a, -⟩ := h2
  unfold dayOfYearMD
  rcases hlex with hm | ⟨hm, hd⟩
  · have e1 := cumDaysB_pred leap hm1a
    have e2 := cumDaysB_mono leap (show m1 ≤ m2 - 1 by omega)
    omega
  · subst hm; omega

lemma lex_of_dayOfYearMD_le (leap : Bool) {m1 d1 m2 d2 : Nat}
    (h1 : ValidMD leap m1 d1) (h2 : ValidMD leap m2 d2)
    (hle : dayOfYearMD leap m1 d1 ≤ dayOfYearMD leap m2 d2) :
    m1 < m2 ∨ (m1 = m2 ∧ d1 ≤ d2) := by
  rcases Nat.lt_trichotomy m1 m2 with h | h | h
  · exact Or.inl h
  · refine Or.inr ⟨h, ?_⟩
    unfold dayOfYearMD at hle
    subst h
    omega
  · exfalso
    obtain ⟨-, -, hd1a, -⟩ := h1
    obtain ⟨hm2a, -, -, hd2b⟩ := h2
    have e1 := cumDaysB_pred leap hm2a
    have e2 := cumDaysB_mono leap (show m2 ≤ m1 - 1 by omega)
    unfold dayOfYearMD at hle
    omega

lemma dayOfYearD_pos {d : Date} (h : ValidDate d) : 1 ≤ dayOfYearD d := by
  obtain ⟨-, -, hd1, -⟩ := h
  unfold dayOfYearD dayOfYearMD
  omega

lemma dayOfYearD_le_year {d : Date} (h : ValidDate d) :
    dayOfYearD d ≤ daysInYearB (isLeapB d.year) := by
  have h12 : ValidMD (isLeapB d.year) 12 31 := by cases isLeapB d.year <;> decide
  have hend : dayOfYearMD (isLeapB d.year) 12 31 = daysInYearB (isLeapB d.year) := by
    cases isLeapB d.year <;> decide
  have hlex : d.month < 12 ∨ (d.month = 12 ∧ d.day ≤ 31) := by
    obtain ⟨-, hm12, -, hdm⟩ := h
    rcases Nat.lt_or_ge d.month 12 with hm | hm
    · exact Or.inl hm
    · have he : d.month = 12 := by omega
      refine Or.inr ⟨he, ?_⟩
      rw [he] at hdm
      have : daysInMonthB (isLeapB d.year) 12 = 31 := by cases isLeapB d.year <;> decide
      omega
  have := dayOfYearMD_le (isLeapB d.year) h h12 hlex
  unfold dayOfYearD
  omega

lemma fakerDateThisYear_eq (today : Date) (e : Nat) :
    fakerDateThisYear today e =
      { year := today.year,
        month := (fromOrdinalMD (isLeapB today.year) (1 + e % dayOfYearD today)).1,
        day := (fromOrdinalMD (isLeapB today.year) (1 + e % dayOfYearD today)).2 } := rfl

lemma dateLe_mk_mk {y1 m1 d1 y2 m2 d2 : Nat} :
    dateLe { year := y1, month := m1, day := d1 } { year := y2, month := m2, day := d2 } ↔
      (y1 < y2 ∨ (y1 = y2 ∧ (m1 < m2 ∨ (m1 = m2 ∧ d1 ≤ d2)))) := Iff.rfl

/-- Everything C1 and C10 need about a single faker date draw: validity,
year, and the bounds January 1 ≤ drawn date ≤ today. -/
lemma fakerDateThisYear_spec {today : Date} (hv : ValidDate today) (e : Nat) :
    ValidDate (fakerDateThisYear today e) ∧
      (fakerDateThisYear today e).year = today.year ∧
      dateLe { year := today.year, month := 1, day := 1 } (fakerDateThisYear today e) ∧
      dateLe (fakerDateThisYear today e) today := by
  have hN1 : 1 ≤ dayOfYearD today := dayOfYearD_pos hv
  have hNy : dayOfYearD today ≤ daysInYearB (isLeapB today.year) := dayOfYearD_le_year hv
  have hmod : e % dayOfYearD today < dayOfYearD today := Nat.mod_lt _ (by omega)
  obtain ⟨hvmd, hord⟩ := fromOrdinalMD_spec (isLeapB today.year) (1 + e % dayOfYearD today)
    (by omega) (by omega)
  have hm1 : 1 ≤ (fromOrdinalMD (isLeapB today.year) (1 + e % dayOfYearD today)).1 := hvmd.1
  have hd1 : 1 ≤ (fromOrdinalMD (isLeapB today.year) (1 + e % dayOfYearD today)).2 :=
    hvmd.2.2.1
  have hle : dayOfYearMD (isLeapB today.year)
      (fromOrdinalMD (isLeapB today.year) (1 + e % dayOfYearD today)).1
      (fromOrdinalMD (isLeapB today.year) (1 + e % dayOfYearD today)).2 ≤
      dayOfYearD today := by
    rw [hord]; omega
  have hvToday : ValidMD (isLeapB today.year) today.month today.day := hv
  have hlex := lex_of_dayOfYearMD_le (isLeapB today.year) hvmd hvToday hle
  refine ⟨hvmd, rfl, ?_, ?_⟩
  · rw [fakerDateThisYear_eq]
    exact dateLe_mk_mk.mpr (Or.inr ⟨rfl, by omega⟩)
  · rw [fakerDateThisYear_eq]
    rcases hlex with hmm | ⟨hmm, hdd⟩
    · exact Or.inr ⟨rfl, Or.inl hmm⟩
    · exact Or.inr ⟨rfl, Or.inr ⟨hmm, hdd⟩⟩

/-- Uniformity: each admissible date is hit by exactly one canonical draw
below `dayOfYearD today`. -/
lemma fakerDateThisYear_unique {today : Date} (hv : ValidDate today) (d : Date)
    (hd : ValidDate d) (hy : d.year = today.year) (hle : dateLe d today) :
    ∃! k, k < dayOfYearD today ∧ fakerDateThisYear today k = d := by
  have hN1 : 1 ≤ dayOfYearD today := dayOfYearD_pos hv
  have hd' : ValidMD (isLeapB today.year) d.month d.day := by
    unfold ValidDate at hd
    rw [hy] at hd
    exact hd
  have hlex : d.month < today.month ∨ (d.month = today.month ∧ d.day ≤ today.day) := by
    rcases hle with hlt | ⟨-, hrest⟩
    · omega
    · exact hrest
  have hordle : dayOfYearMD (isLeapB today.year) d.month d.day ≤ dayOfYearD today :=
    dayOfYearMD_le (isLeapB today.year) hd' hv hlex
  have hordpos : 1 ≤ dayOfYearMD (isLeapB today.year) d.month d.day := by
    obtain ⟨-, -, hd1, -⟩ := hd'
    unfold dayOfYearMD
    omega
  refine ⟨dayOfYearMD (isLeapB today.year) d.month d.day - 1, ⟨by omega, ?_⟩, ?_⟩
  · unfold fakerDateThisYear fromOrdinalDate
    rw [Nat.mod_eq_of_lt (by omega), (by omega :
      1 + (dayOfYearMD (isLeapB today.year) d.month d.day - 1) =
        dayOfYearMD (isLeapB today.year) d.month d.day)]
    rw [dayOfYearMD_fromOrdinal (isLeapB today.year) hd']
    obtain ⟨dy, dm, dd⟩ := d
    simp only at hy
    rw [hy]
  · rintro k ⟨hk, he⟩
    have hNy : dayOfYearD today ≤ daysInYearB (isLeapB today.year) := dayOfYearD_le_year hv
    have hspec := fromOrdinalMD_spec (isLeapB today.year) (1 + k % dayOfYearD today)
      (by omega) (by have := Nat.mod_lt k (show 0 < dayOfYearD today by omega); omega)
    obtain ⟨-, hord⟩ := hspec
    have hmd : (fromOrdinalMD (isLeapB today.year) (1 + k % dayOfYearD today)).1 = d.month ∧
        (fromOrdinalMD (isLeapB today.year) (1 + k % dayOfYearD today)).2 = d.day := by
      unfold fakerDateThisYear fromOrdinalDate at he
      obtain ⟨dy, dm, dd⟩ := d
      simp only [Date.mk.injEq] at he
      exact ⟨he.2.1, he.2.2⟩
    rw [hmd.1, hmd.2] at hord
    rw [Nat.mod_eq_of_lt hk] at hord
    omega

lemma digitVal_digitChar {k : Nat} (h : k < 10) : digitVal (Nat.digitChar k) = some k := by
  interval_cases k <;> decide

lemma parse_strftime {d : Date} (hy : d.year ≤ 9999) (hm : d.month ≤ 99) (hd : d.day ≤ 99) :
    parseDateYMD (strftimeYMD d) = some d := by
  obtain ⟨y, m, dd⟩ := d
  simp only at hy hm hd
  show parseDateYMD (strftimeYMD { year := y, month := m, day := dd }) = _
  unfold strftimeYMD parseDateYMD pad4Chars pad2Chars
  simp only [List.cons_append, List.nil_append]
  rw [digitVal_digitChar (Nat.mod_lt _ (by norm_num)),
    digitVal_digitChar (Nat.mod_lt _ (by norm_num)),
    digitVal_digitChar (Nat.mod_lt _ (by norm_num)),
    digitVal_digitChar (Nat.mod_lt _ (by norm_num)),
    digitVal_digitChar (Nat.mod_lt _ (by norm_num)),
    digitVal_digitChar (Nat.mod_lt _ (by norm_num)),
    digitVal_digitChar (Nat.mod_lt _ (by norm_num)),
    digitVal_digitChar (Nat.mod_lt _ (by norm_num))]
  simp only [and_self, if_true, Option.some.injEq, Date.mk.injEq]
  refine ⟨by omega, by omega, by omega⟩

lemma daysInMonthB_le_31 (leap : Bool) (m : Nat) (hm : m ≤ 12) :
    daysInMonthB leap m ≤ 31 := by
  interval_cases m <;> cases leap <;> decide

lemma month_day_le_99 {d : Date} (h : ValidDate d) : d.month ≤ 99 ∧ d.day ≤ 99 := by
  obtain ⟨-, hm12, -, hdm⟩ := h
  have := daysInMonthB_le_31 (isLeapB d.year) d.month hm12
  omega

/-- C1 (amended): the date field is drawn uniformly from the days between
January 1 of the current year and the generation day inclusive (not the
whole calendar year), formatted `YYYY-MM-DD`, and parses back as a valid
calendar date whose year equals the current year: every admissible day is
produced by exactly one canonical draw. -/
theorem date_uniform_within_elapsed_year (o : RandOracle) (r : Review)
    (h : (generate_fake_review initEnv o).1 = some r)
    (hv : ValidDate o.today) (hy : o.today.year ≤ 9999) :
    ∃ d : Date,
      List.lookup "date" r = some (PyVal.s (strftimeYMD d)) ∧
      parseDateYMD (strftimeYMD d) = some d ∧
      ValidDate d ∧ d.year = o.today.year ∧
      dateLe { year := o.today.year, month := 1, day := 1 } d ∧ dateLe d o.today ∧
      ∀ d' : Date, ValidDate d' → d'.year = o.today.year → dateLe d' o.today →
        ∃! k, k < dayOfYearD o.today ∧ fakerDateThisYear o.today k = d' := by
  obtain ⟨a, t, b, -, -, -, hr⟩ := generate_eq_some h
  subst hr
  obtain ⟨hvd, hyr, hjan, htod⟩ := fakerDateThisYear_spec hv o.dateDraw
  obtain ⟨hm99, hd99⟩ := month_day_le_99 hvd
  refine ⟨fakerDateThisYear o.today o.dateDraw, rfl,
    parse_strftime (by omega) hm99 hd99, hvd, hyr, hjan, htod, ?_⟩
  intro d' hd' hy' hle'
  exact fakerDateThisYear_unique hv d' hd' hy' hle'

/-- Witness for C1 at the sample oracle (today = 2026-10-12). -/
theorem date_uniform_within_elapsed_year_witness :
    ∃ d : Date,
      List.lookup "date" sampleReview = some (PyVal.s (strftimeYMD d)) ∧
      parseDateYMD (strftimeYMD d) = some d ∧
      ValidDate d ∧ d.year = sampleOracle.today.year ∧
      dateLe { year := sampleOracle.today.year, month := 1, day := 1 } d ∧
      dateLe d sampleOracle.today ∧
      ∀ d' : Date, ValidDate d' → d'.year = sampleOracle.today.year →
        dateLe d' sampleOracle.today →
        ∃! k, k < dayOfYearD sampleOracle.today ∧
          fakerDateThisYear sampleOracle.today k = d' :=
  date_uniform_within_elapsed_year sampleOracle sampleReview rfl (by decide) (by decide)

/-- Counterexample to C1 as stated: with today = 2026-10-12 the valid
current-year date 2026-12-31 is never produced, so the draw is not uniform
over the whole current calendar year. -/
theorem date_full_year_counterexample :
    ValidDate { year := 2026, month := 12, day := 31 } ∧
    ¬ ∃ e : Nat, strftimeYMD (fakerDateThisYear { year := 2026, month := 10, day := 12 } e) =
        strftimeYMD { year := 2026, month := 12, day := 31 } := by
  refine ⟨by decide, ?_⟩
  rintro ⟨e, he⟩
  have h285 : dayOfYearD { year := 2026, month := 10, day := 12 } = 285 := by decide
  have key : ∀ k : Fin 285, strftimeYMD (fromOrdinalDate 2026 (1 + k.1)) ≠
      strftimeYMD { year := 2026, month := 12, day := 31 } := by decide
  unfold fakerDateThisYear at he
  rw [h285] at he
  have hk : e % 285 < 285 := Nat.mod_lt _ (by norm_num)
  exact key ⟨e % 285, hk⟩ he

/-- C10: the generated date is never in the future: it lies between
January 1 of the generation year and the generation day, inclusive. -/
theorem date_not_in_future (o : RandOracle) (r : Review)
    (h : (generate_fake_review initEnv o).1 = some r) (hv : ValidDate o.today) :
    ∃ d : Date,
      List.lookup "date" r = some (PyVal.s (strftimeYMD d)) ∧ ValidDate d ∧
      d.year = o.today.year ∧
      dateLe { year := o.today.year, month := 1, day := 1 } d ∧ dateLe d o.today := by
  obtain ⟨a, t, b, -, -, -, hr⟩ := generate_eq_some h
  subst hr
  obtain ⟨hvd, hyr, hjan, htod⟩ := fakerDateThisYear_spec hv o.dateDraw
  exact ⟨fakerDateThisYear o.today o.dateDraw, rfl, hvd, hyr, hjan, htod⟩

/-- Witness for C10 at the sample oracle. -/
theorem date_not_in_future_witness :
    ∃ d : Date,
      List.lookup "date" sampleReview = some (PyVal.s (strftimeYMD d)) ∧ ValidDate d ∧
      d.year = sampleOracle.today.year ∧
      dateLe { year := sampleOracle.today.year, month := 1, day := 1 } d ∧
      dateLe d sampleOracle.today :=
  date_not_in_future sampleOracle sampleReview rfl (by decide)

/-! ## UUID lemmas -/

lemma uuidStrChars_eq (v : Nat) :
    uuidStrChars v =
      List.map (nib v) [31, 30, 29, 28, 27, 26, 25, 24] ++ '-' ::
        List.map (nib v) [23, 22, 21, 20] ++ '-' ::
        List.map (nib v) [19, 18, 17, 16] ++ '-' ::
        List.map (nib v) [15, 14, 13, 12] ++ '-' ::
        List.map (nib v) [11, 10, 9, 8, 7, 6, 5, 4, 3, 2, 1, 0] := rfl

lemma uuid4str_length (r : Nat) : (uuid4str r).length = 36 := by
  show (uuidStrChars (uuid4val r)).length = 36
  rw [uuidStrChars_eq]
  rfl

lemma uuid4val_version (r : Nat) : uuid4val r / 16 ^ 19 % 16 = 4 := by
  unfold uuid4val
  omega

lemma uuid4val_variant (r : Nat) :
    8 ≤ uuid4val r / 16 ^ 15 % 16 ∧ uuid4val r / 16 ^ 15 % 16 ≤ 11 := by
  unfold uuid4val
  constructor <;> omega

lemma uuid4val_lt (r : Nat) (hr : r < 2 ^ 128) : uuid4val r < 16 ^ 32 := by
  unfold uuid4val
  omega

lemma digitChar_mem_hexDigits {k : Nat} (h : k < 16) : Nat.digitChar k ∈ hexDigits := by
  interval_cases k <;> decide

lemma nib_mem_hexDigits (v k : Nat) : nib v k ∈ hexDigits :=
  digitChar_mem_hexDigits (Nat.mod_lt _ (by norm_num))

lemma digitChar_inj16 {a b : Nat} (ha : a < 16) (hb : b < 16)
    (h : Nat.digitChar a = Nat.digitChar b) : a = b := by
  have key : ∀ x : Fin 16, ∀ y : Fin 16, Nat.digitChar x.1 = Nat.digitChar y.1 → x.1 = y.1 := by
    decide
  exact key ⟨a, ha⟩ ⟨b, hb⟩ h

lemma nib_inj {v1 v2 k : Nat} (h : nib v1 k = nib v2 k) :
    v1 / 16 ^ k % 16 = v2 / 16 ^ k % 16 :=
  digitChar_inj16 (Nat.mod_lt _ (by norm_num)) (Nat.mod_lt _ (by norm_num)) h

lemma digitChar_8_11 {k : Nat} (h8 : 8 ≤ k) (h11 : k ≤ 11) :
    Nat.digitChar k = '8' ∨ Nat.digitChar k = '9' ∨
      Nat.digitChar k = 'a' ∨ Nat.digitChar k = 'b' := by
  interval_cases k <;> decide

lemma nibble_ext (w : Nat) : ∀ a b : Nat, a < 16 ^ w → b < 16 ^ w →
    (∀ k, k < w → a / 16 ^ k % 16 = b / 16 ^ k % 16) → a = b := by
  induction w with
  | zero =>
    intro a b ha hb _
    simp only [pow_zero, Nat.lt_one_iff] at ha hb
    omega
  | succ w ih =>
    intro a b ha hb hk
    have h0 := hk 0 (by omega)
    simp only [pow_zero, Nat.div_one] at h0
    have hstep : ∀ x k : Nat, x / 16 / 16 ^ k = x / 16 ^ (k + 1) := by
      intro x k
      rw [Nat.div_div_eq_div_mul]
      congr 1
      rw [pow_succ]
      exact Nat.mul_comm 16 (16 ^ k)
    have hp : (16 : Nat) ^ (w + 1) = 16 ^ w * 16 := pow_succ 16 w
    have hdiv : a / 16 = b / 16 := by
      refine ih (a / 16) (b / 16) (by omega) (by omega) ?_
      intro k hkw
      rw [hstep a k, hstep b k]
      exact hk (k + 1) (by omega)
    omega

set_option maxHeartbeats 2000000 in
/-- C4 (amended): the review id renders the 128-bit draw in standard UUID
textual form — 36 characters, five dash-separated lowercase-hex groups of
lengths 8-4-4-4-12, version nibble `4` and variant nibble in `8..b` — and
two ids coincide exactly when the draws agree outside the six bit positions
(62, 63, 76-79) that `uuid4` overwrites with the variant and version. -/
theorem review_id_uuid_form_inj (r1 r2 : Nat) (h1 : r1 < 2 ^ 128) (h2 : r2 < 2 ^ 128) :
    (uuid4str r1).length = 36 ∧
    (∃ g1 g2 g3 g4 g5 : List Char,
      (uuid4str r1).data = g1 ++ '-' :: g2 ++ '-' :: g3 ++ '-' :: g4 ++ '-' :: g5 ∧
      g1.length = 8 ∧ g2.length = 4 ∧ g3.length = 4 ∧ g4.length = 4 ∧ g5.length = 12 ∧
      (∀ c ∈ g1, c ∈ hexDigits) ∧ (∀ c ∈ g2, c ∈ hexDigits) ∧ (∀ c ∈ g3, c ∈ hexDigits) ∧
      (∀ c ∈ g4, c ∈ hexDigits) ∧ (∀ c ∈ g5, c ∈ hexDigits) ∧
      (∃ t, g3 = '4' :: t) ∧
      (∃ c t, g4 = c :: t ∧ (c = '8' ∨ c = '9' ∨ c = 'a' ∨ c = 'b'))) ∧
    (uuid4str r1 = uuid4str r2 ↔
      (r1 % 2 ^ 62 = r2 % 2 ^ 62 ∧ r1 / 2 ^ 64 % 2 ^ 12 = r2 / 2 ^ 64 % 2 ^ 12 ∧
        r1 / 2 ^ 80 = r2 / 2 ^ 80)) := by
  have memg : ∀ (l : List Nat) (c : Char), c ∈ List.map (nib (uuid4val r1)) l → c ∈ hexDigits := by
    intro l c hc
    obtain ⟨k, -, hk⟩ := List.mem_map.mp hc
    exact hk ▸ nib_mem_hexDigits _ _
  refine ⟨uuid4str_length r1, ?_, ?_⟩
  · refine ⟨List.map (nib (uuid4val r1)) [31, 30, 29, 28, 27, 26, 25, 24],
      List.map (nib (uuid4val r1)) [23, 22, 21, 20],
      List.map (nib (uuid4val r1)) [19, 18, 17, 16],
      List.map (nib (uuid4val r1)) [15, 14, 13, 12],
      List.map (nib (uuid4val r1)) [11, 10, 9, 8, 7, 6, 5, 4, 3, 2, 1, 0],
      ?_, rfl, rfl, rfl, rfl, rfl, memg _, memg _, memg _, memg _, memg _, ?_, ?_⟩
    · show uuidStrChars (uuid4val r1) = _
      rw [uuidStrChars_eq]
    · refine ⟨List.map (nib (uuid4val r1)) [18, 17, 16], ?_⟩
      simp only [List.map_cons]
      have h4 : nib (uuid4val r1) 19 = '4' := by
        unfold nib
        rw [uuid4val_version]
        decide
      rw [h4]
    · refine ⟨nib (uuid4val r1) 15, List.map (nib (uuid4val r1)) [14, 13, 12], rfl, ?_⟩
      obtain ⟨hlo, hhi⟩ := uuid4val_variant r1
      exact digitChar_8_11 hlo hhi
  · constructor
    · intro he
      have hd : uuidStrChars (uuid4val r1) = uuidStrChars (uuid4val r2) :=
        congrArg String.data he
      rw [uuidStrChars_eq, uuidStrChars_eq] at hd
      simp only [List.map_cons, List.map_nil, List.cons_append, List.nil_append,
        List.cons.injEq, and_true] at hd
      obtain ⟨e31, e30, e29, e28, e27, e26, e25, e24, -, e23, e22, e21, e20, -,
        e19, e18, e17, e16, -, e15, e14, e13, e12, -, e11, e10, e9, e8, e7, e6, e5, e4,
        e3, e2, e1, e0⟩ := hd
      have m0 := nib_inj e0
      have m1 := nib_inj e1
      have m2 := nib_inj e2
      have m3 := nib_inj e3
      have m4 := nib_inj e4
      have m5 := nib_inj e5
      have m6 := nib_inj e6
      have m7 := nib_inj e7
      have m8 := nib_inj e8
      have m9 := nib_inj e9
      have m10 := nib_inj e10
      have m11 := nib_inj e11
      have m12 := nib_inj e12
      have m13 := nib_inj e13
      have m14 := nib_inj e14
      have m15 := nib_inj e15
      have m16 := nib_inj e16
      have m17 := nib_inj e17
      have m18 := nib_inj e18
      have m19 := nib_inj e19
      have m20 := nib_inj e20
      have m21 := nib_inj e21
      have m22 := nib_inj e22
      have m23 := nib_inj e23
      have m24 := nib_inj e24
      have m25 := nib_inj e25
      have m26 := nib_inj e26
      have m27 := nib_inj e27
      have m28 := nib_inj e28
      have m29 := nib_inj e29
      have m30 := nib_inj e30
      have m31 := nib_inj e31
      have hv : uuid4val r1 = uuid4val r2 := by
        refine nibble_ext 32 _ _ (uuid4val_lt r1 h1) (uuid4val_lt r2 h2) ?_
        intro k hk
        interval_cases k <;> assumption
      unfold uuid4val at hv
      refine ⟨by omega, by omega, by omega⟩
    · rintro ⟨e1, e2, e3⟩
      have hv : uuid4val r1 = uuid4val r2 := by
        unfold uuid4val
        rw [e1, e2, e3]
      show String.mk (uuidStrChars (uuid4val r1)) = String.mk (uuidStrChars (uuid4val r2))
      rw [hv]

/-- Witness for C4 at the draws 0 and 1. -/
theorem review_id_uuid_form_inj_witness :
    (uuid4str 0).length = 36 ∧
    (∃ g1 g2 g3 g4 g5 : List Char,
      (uuid4str 0).data = g1 ++ '-' :: g2 ++ '-' :: g3 ++ '-' :: g4 ++ '-' :: g5 ∧
      g1.length = 8 ∧ g2.length = 4 ∧ g3.length = 4 ∧ g4.length = 4 ∧ g5.length = 12 ∧
      (∀ c ∈ g1, c ∈ hexDigits) ∧ (∀ c ∈ g2, c ∈ hexDigits) ∧ (∀ c ∈ g3, c ∈ hexDigits) ∧
      (∀ c ∈ g4, c ∈ hexDigits) ∧ (∀ c ∈ g5, c ∈ hexDigits) ∧
      (∃ t, g3 = '4' :: t) ∧
      (∃ c t, g4 = c :: t ∧ (c = '8' ∨ c = '9' ∨ c = 'a' ∨ c = 'b'))) ∧
    (uuid4str 0 = uuid4str 1 ↔
      ((0 : Nat) % 2 ^ 62 = (1 : Nat) % 2 ^ 62 ∧
        (0 : Nat) / 2 ^ 64 % 2 ^ 12 = (1 : Nat) / 2 ^ 64 % 2 ^ 12 ∧
        (0 : Nat) / 2 ^ 80 = (1 : Nat) / 2 ^ 80)) :=
  review_id_uuid_form_inj 0 1 (by norm_num) (by norm_num)

/-- Counterexample to C4 as stated: two calls whose underlying 128-bit
draws differ (0 versus bit 78 set) produce identical `review_id` values,
because `uuid4` overwrites that bit with the version field. -/
theorem review_id_distinct_draws_counterexample :
    uuidZeroOracle.uuidBits ≠ uuidBitOracle.uuidBits ∧
    ((generate_fake_review initEnv uuidZeroOracle).1.bind
        (fun r => List.lookup "review_id" r)).isSome = true ∧
    (generate_fake_review initEnv uuidZeroOracle).1.bind
        (fun r => List.lookup "review_id" r) =
      (generate_fake_review initEnv uuidBitOracle).1.bind
        (fun r => List.lookup "review_id" r) := by
  refine ⟨by decide, by decide, by decide⟩

end ProjetAzure
